import Mathlib

/-!
Shallow embedding of the animate.js repository (src/easing.ts and src/animate.ts).

JS numbers are modelled as rationals; JS `undefined` for an uninitialized
variable is modelled with `Option`.  The animation driver is modelled as a
deterministic state machine: one `RunState` per run, driven by a list of
external events (frame-clock ticks carrying a timestamp, and user-interaction
signals on the configured element).
-/

namespace AnimateJs

/-! ### src/easing.ts

Each entry is transcribed from the source object literal.  The JS prefix
decrement `--t` rebinds `t` to `t - 1` before the multiplications, which is
rendered with a `let`. -/

namespace EasingFunctions

def linear (t : ℚ) : ℚ := t

def easeInQuad (t : ℚ) : ℚ := t * t

def easeOutQuad (t : ℚ) : ℚ := t * (2 - t)

def easeInOutQuad (t : ℚ) : ℚ :=
  if t < 0.5 then 2 * t * t else -1 + (4 - 2 * t) * t

def easeInCubic (t : ℚ) : ℚ := t * t * t

def easeOutCubic (t : ℚ) : ℚ :=
  let u := t - 1
  u * u * u + 1

def easeInOutCubic (t : ℚ) : ℚ :=
  if t < 0.5 then 4 * t * t * t else (t - 1) * (2 * t - 2) * (2 * t - 2) + 1

def easeInQuart (t : ℚ) : ℚ := t * t * t * t

def easeOutQuart (t : ℚ) : ℚ :=
  let u := t - 1
  1 - u * u * u * u

def easeInOutQuart (t : ℚ) : ℚ :=
  if t < 0.5 then 8 * t * t * t * t else
    let u := t - 1
    1 - 8 * u * u * u * u

def easeInQuint (t : ℚ) : ℚ := t * t * t * t * t

def easeOutQuint (t : ℚ) : ℚ :=
  let u := t - 1
  1 + u * u * u * u * u

def easeInOutQuint (t : ℚ) : ℚ :=
  if t < 0.5 then 16 * t * t * t * t * t else
    let u := t - 1
    1 + 16 * u * u * u * u * u

end EasingFunctions

/-- The exported `EasingFunctions` object, as the ordered list of its
(name, function) entries. -/
def easingCatalog : List (String × (ℚ → ℚ)) :=
  [("linear", EasingFunctions.linear),
   ("easeInQuad", EasingFunctions.easeInQuad),
   ("easeOutQuad", EasingFunctions.easeOutQuad),
   ("easeInOutQuad", EasingFunctions.easeInOutQuad),
   ("easeInCubic", EasingFunctions.easeInCubic),
   ("easeOutCubic", EasingFunctions.easeOutCubic),
   ("easeInOutCubic", EasingFunctions.easeInOutCubic),
   ("easeInQuart", EasingFunctions.easeInQuart),
   ("easeOutQuart", EasingFunctions.easeOutQuart),
   ("easeInOutQuart", EasingFunctions.easeInOutQuart),
   ("easeInQuint", EasingFunctions.easeInQuint),
   ("easeOutQuint", EasingFunctions.easeOutQuint),
   ("easeInOutQuint", EasingFunctions.easeInOutQuint)]

/-! ### src/animate.ts -/

/-- A reference to an event-listener argument.  The only listener function the
driver ever registers is `animationCompleteHandler` (`completeH`).  When the
host dispatches an event the handler runs with `this` bound to the element the
listener was attached to (`elemRef`); when the driver calls it directly as
`complete()` in an ES module (strict mode), `this` is `undefined` (`undef`). -/
inductive HandlerRef
  | completeH
  | elemRef
  | undef
  deriving DecidableEq

/-- The four user-interaction event kinds listened to in `addListeners`. -/
inductive EvKind
  | wheel
  | touchstart
  | mousedown
  | keydown
  deriving DecidableEq

/-- The configuration fields the driver closures read (`duration`, `easing`,
`cancelOnUserAction`); the element is modelled implicitly as the single
surface events fire on. -/
structure AnimConfig where
  cancelOnUserAction : Bool
  duration : ℚ
  easing : ℚ → ℚ

/-- The mutable state of one run of `animate`:
the element's listener list, the host's pending requestAnimationFrame queue
and id counter, and the closure variables `requestId` (uninitialized at the
start: the return value of the initial `requestAnimationFrame(doStep)` call is
not assigned to it), `start`, the captured `startTime` of `nextValueIterator`
once created, plus observation traces: how often `resolve` has been called and
the values passed to `step`. -/
structure RunState where
  listeners : List (EvKind × HandlerRef)
  pendingFrames : List Nat
  nextFrameId : Nat
  requestId : Option Nat
  start : Option ℚ
  iteratorStart : Option ℚ
  resolveCount : Nat
  stepTrace : List ℚ
  deriving DecidableEq

/-- `element.removeEventListener(kind, h)`: drop the matching registered
listener, a no-op when `h` was not registered for `kind`. -/
def removeEventListenerL (k : EvKind) (h : HandlerRef)
    (l : List (EvKind × HandlerRef)) : List (EvKind × HandlerRef) :=
  l.erase (k, h)

/-- `removeListeners(target, handler)` from `getAnimationCompleteHandler`:
remove `handler` for wheel, touchstart, mousedown, keydown in turn. -/
def removeListeners (h : HandlerRef) (s : RunState) : RunState :=
  { s with listeners :=
      removeEventListenerL .keydown h (removeEventListenerL .mousedown h
        (removeEventListenerL .touchstart h
          (removeEventListenerL .wheel h s.listeners))) }

/-- `cancelAnimationFrame(requestId)`: with an id, unschedule that pending
frame request; calling it with `undefined` is a no-op. -/
def cancelAnimationFrame (requestId : Option Nat) (s : RunState) : RunState :=
  match requestId with
  | none => s
  | some id => { s with pendingFrames := s.pendingFrames.erase id }

/-- The body of `animationCompleteHandler`, invoked with `this = thisArg`:
`cancelAnimationFrame(requestId); if (cancelOnUserAction)
removeListeners(element, this); resolve();`. -/
def completeHandler (cfg : AnimConfig) (thisArg : HandlerRef)
    (s : RunState) : RunState :=
  let s1 := cancelAnimationFrame s.requestId s
  let s2 := if cfg.cancelOnUserAction then removeListeners thisArg s1 else s1
  { s2 with resolveCount := s2.resolveCount + 1 }

/-- `getEasingValueIterator(startTime, targetTime, easing)`: the returned
closure, with the elapsed-fraction expression exactly as written. -/
def getEasingValueIterator (startTime targetTime : ℚ) (easing : ℚ → ℚ) :
    ℚ → ℚ :=
  fun currentTime =>
    easing (1 - (targetTime - (currentTime - startTime)) / targetTime)

/-- `start = start || timestamp`: JS `||` keeps `start` only when it is
truthy, so an undefined `start` and a recorded `start` of `0` are both
replaced by `timestamp`. -/
def jsOrTimestamp (start : Option ℚ) (timestamp : ℚ) : ℚ :=
  match start with
  | none => timestamp
  | some v => if v = 0 then timestamp else v

/-- One invocation of `frame(timestamp)` from `getDoStep`:
update `start` and `nextValueIterator` (`x = x || e` on each), then either
(`shouldContinue`: `timestamp - start < duration`) push `step(nextValue)` and
schedule the next frame into `requestId`, or push `step(1)` and run
`complete()` (a plain call, so `this = undefined` inside the handler). -/
def frame (cfg : AnimConfig) (s : RunState) (timestamp : ℚ) : RunState :=
  let startVal := jsOrTimestamp s.start timestamp
  let iterStart := s.iteratorStart.getD startVal
  let s1 : RunState := { s with start := some startVal, iteratorStart := some iterStart }
  if timestamp - startVal < cfg.duration then
    let nextValue := getEasingValueIterator iterStart cfg.duration cfg.easing timestamp
    { s1 with stepTrace := s1.stepTrace ++ [nextValue],
              requestId := some s1.nextFrameId,
              pendingFrames := s1.pendingFrames ++ [s1.nextFrameId],
              nextFrameId := s1.nextFrameId + 1 }
  else
    completeHandler cfg HandlerRef.undef { s1 with stepTrace := s1.stepTrace ++ [1] }

/-- Dispatch of one user-interaction event of kind `k` on the element: if the
shared handler is registered for `k`, its body runs with `this` bound to the
element. -/
def fireSignal (cfg : AnimConfig) (k : EvKind) (s : RunState) : RunState :=
  if (k, HandlerRef.completeH) ∈ s.listeners then
    completeHandler cfg HandlerRef.elemRef s
  else s

/-- External events that drive a run: a frame-clock tick (which runs the
earliest pending scheduled frame callback, if any) or a user-interaction
signal. -/
inductive AnimEvent
  | tick (timestamp : ℚ)
  | signal (k : EvKind)

def stepEv (cfg : AnimConfig) (s : RunState) : AnimEvent → RunState
  | AnimEvent.tick ts =>
    match s.pendingFrames with
    | [] => s
    | _ :: rest => frame cfg { s with pendingFrames := rest } ts
  | AnimEvent.signal k => fireSignal cfg k s

/-- The state right after the `Promise` executor in `animate` runs:
`addListeners(element, animationCompleteHandler)` when `cancelOnUserAction`,
then `requestAnimationFrame(doStep)` — whose returned id (0) is scheduled but
never assigned to `requestId`. -/
def initState (cfg : AnimConfig) : RunState :=
  { listeners :=
      if cfg.cancelOnUserAction then
        [(.wheel, .completeH), (.touchstart, .completeH),
         (.mousedown, .completeH), (.keydown, .completeH)]
      else []
    pendingFrames := [0]
    nextFrameId := 1
    requestId := none
    start := none
    iteratorStart := none
    resolveCount := 0
    stepTrace := [] }

/-- A whole run: the initial state driven by a list of external events. -/
def run (cfg : AnimConfig) (evs : List AnimEvent) : RunState :=
  evs.foldl (stepEv cfg) (initState cfg)

/-! ### Option merging (`const options = Object.assign(defaultOptions, userOptions)`) -/

/-- The animation surface: `Window | HTMLElement`. -/
inductive Surface
  | window
  | element (id : Nat)
  deriving DecidableEq

/-- The `AnimationOptions` record. -/
structure AnimationOptions where
  cancelOnUserAction : Bool
  element : Surface
  easing : ℚ → ℚ
  duration : ℚ

/-- A caller-supplied `Partial<AnimationOptions>`: every field optional. -/
structure UserOptions where
  cancelOnUserAction : Option Bool
  element : Option Surface
  easing : Option (ℚ → ℚ)
  duration : Option ℚ

/-- The module-level `defaultOptions` literal. -/
def defaultOptions : AnimationOptions :=
  { cancelOnUserAction := true
    element := .window
    easing := EasingFunctions.linear
    duration := 1000 }

/-- `Object.assign(target, source)` on these records: each field present in
`source` overwrites the target's field. -/
def objectAssign (target : AnimationOptions) (source : UserOptions) :
    AnimationOptions :=
  { cancelOnUserAction := source.cancelOnUserAction.getD target.cancelOnUserAction
    element := source.element.getD target.element
    easing := source.easing.getD target.easing
    duration := source.duration.getD target.duration }

/-- `const options = Object.assign(defaultOptions, userOptions)`:
`Object.assign` writes the source's fields into its target and returns the
mutated target, so one call yields the effective options and the new value of
the module-level `defaultOptions` binding — and they are the same object.
The pair is (effective options, defaultOptions after the call). -/
def resolveOptions (defaults : AnimationOptions) (userOptions : UserOptions) :
    AnimationOptions × AnimationOptions :=
  let merged := objectAssign defaults userOptions
  (merged, merged)

/-! ### Shared configurations for concrete evaluations -/

/-- A concrete configuration: user cancellation on, duration 1000, linear easing. -/
def cfgLin : AnimConfig :=
  { cancelOnUserAction := true, duration := 1000, easing := fun t => t }

/-- A concrete configuration with `cancelOnUserAction := false`. -/
def cfgLinF : AnimConfig :=
  { cancelOnUserAction := false, duration := 1000, easing := fun t => t }

/-! ### Helper lemmas about the completion handler and `frame` -/

theorem completeHandler_stepTrace (cfg : AnimConfig) (th : HandlerRef)
    (s : RunState) : (completeHandler cfg th s).stepTrace = s.stepTrace := by
  unfold completeHandler cancelAnimationFrame removeListeners
  cases s.requestId <;> by_cases hc : cfg.cancelOnUserAction <;> simp [hc]

theorem completeHandler_resolveCount (cfg : AnimConfig) (th : HandlerRef)
    (s : RunState) :
    (completeHandler cfg th s).resolveCount = s.resolveCount + 1 := by
  unfold completeHandler cancelAnimationFrame removeListeners
  cases s.requestId <;> by_cases hc : cfg.cancelOnUserAction <;> simp [hc]

theorem frame_deadline (cfg : AnimConfig) (s : RunState) (ts : ℚ)
    (h : ¬ ts - jsOrTimestamp s.start ts < cfg.duration) :
    (frame cfg s ts).stepTrace = s.stepTrace ++ [1] ∧
    (frame cfg s ts).resolveCount = s.resolveCount + 1 := by
  simp only [frame]
  rw [if_neg h]
  rw [completeHandler_stepTrace, completeHandler_resolveCount]
  exact ⟨rfl, rfl⟩

/-! ### Claim theorems -/

/-- Claim C1: a tick whose timestamp is at or past the deadline
(`ts - start < duration` fails) invokes the step callback with exactly 1 —
independently of the easing function — and then runs the completion handler;
in particular, with `duration ≤ 0` the run completes on the very first
scheduled tick with `step(1)` and no intermediate step calls. -/
theorem deadline_tick_steps_one (cfg : AnimConfig) (s : RunState) (ts : ℚ) :
    (¬ ts - jsOrTimestamp s.start ts < cfg.duration →
      (frame cfg s ts).stepTrace = s.stepTrace ++ [1] ∧
      (frame cfg s ts).resolveCount = s.resolveCount + 1) ∧
    (cfg.duration ≤ 0 →
      (run cfg [AnimEvent.tick ts]).stepTrace = [1] ∧
      (run cfg [AnimEvent.tick ts]).resolveCount = 1) := by
  constructor
  · exact fun h => frame_deadline cfg s ts h
  · intro hd
    have hrun : run cfg [AnimEvent.tick ts] =
        frame cfg { initState cfg with pendingFrames := [] } ts := rfl
    have h0 : ¬ ts - jsOrTimestamp ({ initState cfg with pendingFrames := [] } : RunState).start ts
        < cfg.duration := by
      simp only [initState, jsOrTimestamp, sub_self]
      linarith
    have h1 := frame_deadline cfg { initState cfg with pendingFrames := [] } ts h0
    rw [hrun]
    refine ⟨?_, ?_⟩
    · rw [h1.1]; rfl
    · rw [h1.2]; rfl

/-- Claim C1 witness: with duration 0 the first scheduled tick produces the
single step value 1 and one resolve call. -/
theorem deadline_tick_steps_one_witness :
    ((0 : ℚ) ≤ 0) ∧
    (run { cancelOnUserAction := true, duration := 0, easing := fun t => t }
        [AnimEvent.tick 7]).stepTrace = [1] ∧
    (run { cancelOnUserAction := true, duration := 0, easing := fun t => t }
        [AnimEvent.tick 7]).resolveCount = 1 :=
  ⟨le_refl 0,
    (deadline_tick_steps_one
      { cancelOnUserAction := true, duration := 0, easing := fun t => t }
      (initState { cancelOnUserAction := true, duration := 0, easing := fun t => t })
      7).2 (le_refl 0)⟩

/-- Claim C5: on a tick strictly before the deadline the step callback receives
`easing (1 - (duration - (ts - start)) / duration)` — with the elapsed-fraction
expression in exactly that shape, `start` being the start time captured by
`getEasingValueIterator` — and for `duration > 0` that easing argument equals
`(ts - start) / duration` in exact rational arithmetic. -/
theorem pre_deadline_step_value (cfg : AnimConfig) (s : RunState) (ts : ℚ)
    (h : ts - jsOrTimestamp s.start ts < cfg.duration) :
    (frame cfg s ts).stepTrace = s.stepTrace ++
      [cfg.easing (1 - (cfg.duration -
        (ts - s.iteratorStart.getD (jsOrTimestamp s.start ts))) / cfg.duration)] ∧
    (∀ startTime : ℚ, 0 < cfg.duration →
      1 - (cfg.duration - (ts - startTime)) / cfg.duration =
        (ts - startTime) / cfg.duration) := by
  constructor
  · simp only [frame, getEasingValueIterator]
    rw [if_pos h]
  · intro startTime hd
    field_simp

/-- Claim C5 witness: a first tick at timestamp 250 of a duration-1000 linear
run pushes the easing value of the exact elapsed-fraction expression, which
equals 250/1000. -/
theorem pre_deadline_step_value_witness :
    ((250 : ℚ) - jsOrTimestamp (initState cfgLin).start 250 < cfgLin.duration) ∧
    (frame cfgLin (initState cfgLin) 250).stepTrace =
      (initState cfgLin).stepTrace ++
        [cfgLin.easing (1 - (cfgLin.duration -
          (250 - (initState cfgLin).iteratorStart.getD
            (jsOrTimestamp (initState cfgLin).start 250))) / cfgLin.duration)] ∧
    (∀ startTime : ℚ, 0 < cfgLin.duration →
      1 - (cfgLin.duration - (250 - startTime)) / cfgLin.duration =
        (250 - startTime) / cfgLin.duration) := by
  have h : (250 : ℚ) - jsOrTimestamp (initState cfgLin).start 250 < cfgLin.duration := by
    norm_num [initState, jsOrTimestamp, cfgLin]
  exact ⟨h, pre_deadline_step_value cfgLin (initState cfgLin) 250 h⟩

theorem frame_listeners_empty (cfg : AnimConfig) (s : RunState) (ts : ℚ)
    (h : s.listeners = []) : (frame cfg s ts).listeners = [] := by
  simp only [frame]
  split
  · exact h
  · unfold completeHandler cancelAnimationFrame removeListeners removeEventListenerL
    cases s.requestId <;> by_cases hc : cfg.cancelOnUserAction <;> simp [hc, h]

theorem stepEv_listeners_empty (cfg : AnimConfig) (s : RunState) (e : AnimEvent)
    (h : s.listeners = []) : (stepEv cfg s e).listeners = [] := by
  cases e with
  | tick ts =>
    unfold stepEv
    cases hp : s.pendingFrames with
    | nil => exact h
    | cons a rest => exact frame_listeners_empty cfg _ ts h
  | signal k =>
    simp [stepEv, fireSignal, h]

theorem foldl_listeners_empty (cfg : AnimConfig) (evs : List AnimEvent)
    (s : RunState) (h : s.listeners = []) :
    (evs.foldl (stepEv cfg) s).listeners = [] := by
  induction evs generalizing s with
  | nil => exact h
  | cons e rest ih => exact ih _ (stepEv_listeners_empty cfg s e h)

/-- Claim C6: with `cancelOnUserAction := false` no interaction listeners are
registered, none ever appear during the run, firing any of the four
interaction signals leaves the run state unchanged, and a tick at or past the
deadline still settles the run with a final `step(1)`. -/
theorem no_cancel_signals_ignored (cfg : AnimConfig)
    (hc : cfg.cancelOnUserAction = false) :
    (initState cfg).listeners = [] ∧
    (∀ evs : List AnimEvent, (run cfg evs).listeners = []) ∧
    (∀ (evs : List AnimEvent) (k : EvKind),
      run cfg (evs ++ [AnimEvent.signal k]) = run cfg evs) ∧
    (∀ (s : RunState) (ts : ℚ), ¬ ts - jsOrTimestamp s.start ts < cfg.duration →
      (frame cfg s ts).stepTrace = s.stepTrace ++ [1] ∧
      (frame cfg s ts).resolveCount = s.resolveCount + 1) := by
  have hinit : (initState cfg).listeners = [] := by simp [initState, hc]
  refine ⟨hinit, fun evs => foldl_listeners_empty cfg evs _ hinit, ?_,
    fun s ts h => frame_deadline cfg s ts h⟩
  intro evs k
  unfold run
  rw [List.foldl_append]
  have hl : (List.foldl (stepEv cfg) (initState cfg) evs).listeners = [] :=
    foldl_listeners_empty cfg evs _ hinit
  simp [stepEv, fireSignal, hl]

/-- Claim C6 witness: in the concrete `cancelOnUserAction := false`
configuration, the initial state has no listeners and a wheel signal fired
first leaves the run state unchanged. -/
theorem no_cancel_signals_ignored_witness :
    (initState cfgLinF).listeners = [] ∧
    run cfgLinF ([] ++ [AnimEvent.signal EvKind.wheel]) = run cfgLinF [] :=
  ⟨(no_cancel_signals_ignored cfgLinF rfl).1,
    (no_cancel_signals_ignored cfgLinF rfl).2.2.1 [] EvKind.wheel⟩

/-- Claim C2 is false of the code: `animationCompleteHandler` passes `this`
(the element during event dispatch, `undefined` during the direct
`complete()` call) to `removeEventListener`, never the registered handler
reference, so removal is a no-op.  After two mousedown signals — and equally
after natural deadline completion — all four listeners are still registered,
and the second signal has executed the teardown (resolve) a second time. -/
theorem listeners_never_removed_eval :
    (run cfgLin [AnimEvent.signal EvKind.mousedown,
        AnimEvent.signal EvKind.mousedown]).listeners =
      [(EvKind.wheel, HandlerRef.completeH), (EvKind.touchstart, HandlerRef.completeH),
       (EvKind.mousedown, HandlerRef.completeH), (EvKind.keydown, HandlerRef.completeH)] ∧
    (run cfgLin [AnimEvent.signal EvKind.mousedown,
        AnimEvent.signal EvKind.mousedown]).resolveCount = 2 ∧
    (run cfgLin [AnimEvent.tick 100, AnimEvent.tick 1200]).listeners =
      [(EvKind.wheel, HandlerRef.completeH), (EvKind.touchstart, HandlerRef.completeH),
       (EvKind.mousedown, HandlerRef.completeH), (EvKind.keydown, HandlerRef.completeH)] ∧
    (run cfgLin [AnimEvent.tick 100, AnimEvent.tick 1200]).resolveCount = 1 := by
  refine ⟨?_, ?_, ?_, ?_⟩
  · simp +decide [run, stepEv, initState, frame, jsOrTimestamp, getEasingValueIterator,
      completeHandler, cancelAnimationFrame, removeListeners, removeEventListenerL,
      fireSignal, cfgLin, List.erase_cons]
  · simp +decide [run, stepEv, initState, frame, jsOrTimestamp, getEasingValueIterator,
      completeHandler, cancelAnimationFrame, removeListeners, removeEventListenerL,
      fireSignal, cfgLin, List.erase_cons]
  · norm_num [run, stepEv, initState, frame, jsOrTimestamp, getEasingValueIterator,
      completeHandler, cancelAnimationFrame, removeListeners, removeEventListenerL,
      fireSignal, cfgLin, List.erase_cons]
    decide
  · norm_num [run, stepEv, initState, frame, jsOrTimestamp, getEasingValueIterator,
      completeHandler, cancelAnimationFrame, removeListeners, removeEventListenerL,
      fireSignal, cfgLin, List.erase_cons]

/-- Claim C3 is false of the code: the id returned by the initial
`requestAnimationFrame(doStep)` call is never assigned to `requestId`, so an
interaction signal arriving before the first tick resolves the promise (one
resolve call) yet cancels nothing, and the still-pending first tick then
invokes the step callback (with easing value 0) after the operation has
settled. -/
theorem step_after_settle_eval :
    (run cfgLin [AnimEvent.signal EvKind.mousedown]).resolveCount = 1 ∧
    (run cfgLin [AnimEvent.signal EvKind.mousedown]).stepTrace = [] ∧
    (run cfgLin [AnimEvent.signal EvKind.mousedown, AnimEvent.tick 100]).stepTrace = [0] := by
  refine ⟨?_, ?_, ?_⟩ <;>
    norm_num [run, stepEv, initState, frame, jsOrTimestamp, getEasingValueIterator,
      completeHandler, cancelAnimationFrame, removeListeners, removeEventListenerL,
      fireSignal, cfgLin, List.erase_cons]

/-- Claim C4 is false of the code: `Object.assign(defaultOptions, userOptions)`
writes the caller's fields into the shared `defaultOptions` object itself.
After a call with `{duration: 300}` the shared defaults hold duration 300
instead of the documented 1000, and a later call passing no duration resolves
its duration to the leaked 300. -/
theorem default_options_mutated_eval :
    defaultOptions.duration = 1000 ∧
    (resolveOptions defaultOptions
      { cancelOnUserAction := none, element := none, easing := none,
        duration := some 300 }).2.duration = 300 ∧
    (resolveOptions (resolveOptions defaultOptions
        { cancelOnUserAction := none, element := none, easing := none,
          duration := some 300 }).2
      { cancelOnUserAction := none, element := none, easing := none,
        duration := none }).1.duration = 300 :=
  ⟨rfl, rfl, rfl⟩

/-- Claim C7 is false of the code: `start = start || timestamp` treats a
recorded start of 0 as falsy.  With a first tick at timestamp 0 the run
records `start = 0`, but the second tick at timestamp 5 re-records
`start = 5`, so the start timestamp is not fixed on the first tick for a
first-tick timestamp of 0. -/
theorem start_rerecorded_at_zero_eval :
    (run cfgLinF [AnimEvent.tick 0]).start = some 0 ∧
    (run cfgLinF [AnimEvent.tick 0, AnimEvent.tick 5]).start = some 5 ∧
    (5 : ℚ) ≠ 0 := by
  refine ⟨?_, ?_, by norm_num⟩ <;>
    norm_num [run, stepEv, initState, frame, jsOrTimestamp, getEasingValueIterator,
      completeHandler, cancelAnimationFrame, removeListeners, removeEventListenerL,
      fireSignal, cfgLinF, List.erase_cons]

/-- Claim C8: the exported easing catalog has exactly the thirteen named
entries of the spec table, and each entry equals its exact spec formula at
every input. -/
theorem easing_catalog_matches_spec :
    easingCatalog.map Prod.fst =
      ["linear", "easeInQuad", "easeOutQuad", "easeInOutQuad",
       "easeInCubic", "easeOutCubic", "easeInOutCubic",
       "easeInQuart", "easeOutQuart", "easeInOutQuart",
       "easeInQuint", "easeOutQuint", "easeInOutQuint"] ∧
    (∀ t : ℚ, EasingFunctions.linear t = t) ∧
    (∀ t : ℚ, EasingFunctions.easeInQuad t = t ^ 2) ∧
    (∀ t : ℚ, EasingFunctions.easeOutQuad t = t * (2 - t)) ∧
    (∀ t : ℚ, EasingFunctions.easeInOutQuad t =
      if t < 0.5 then 2 * t ^ 2 else -1 + (4 - 2 * t) * t) ∧
    (∀ t : ℚ, EasingFunctions.easeInCubic t = t ^ 3) ∧
    (∀ t : ℚ, EasingFunctions.easeOutCubic t = (t - 1) ^ 3 + 1) ∧
    (∀ t : ℚ, EasingFunctions.easeInOutCubic t =
      if t < 0.5 then 4 * t ^ 3 else (t - 1) * (2 * t - 2) ^ 2 + 1) ∧
    (∀ t : ℚ, EasingFunctions.easeInQuart t = t ^ 4) ∧
    (∀ t : ℚ, EasingFunctions.easeOutQuart t = 1 - (t - 1) ^ 4) ∧
    (∀ t : ℚ, EasingFunctions.easeInOutQuart t =
      if t < 0.5 then 8 * t ^ 4 else 1 - 8 * (t - 1) ^ 4) ∧
    (∀ t : ℚ, EasingFunctions.easeInQuint t = t ^ 5) ∧
    (∀ t : ℚ, EasingFunctions.easeOutQuint t = 1 + (t - 1) ^ 5) ∧
    (∀ t : ℚ, EasingFunctions.easeInOutQuint t =
      if t < 0.5 then 16 * t ^ 5 else 1 + 16 * (t - 1) ^ 5) := by
  refine ⟨rfl, fun t => rfl,
    fun t => by unfold EasingFunctions.easeInQuad; ring, fun t => rfl, ?_,
    fun t => by unfold EasingFunctions.easeInCubic; ring,
    fun t => by unfold EasingFunctions.easeOutCubic; ring, ?_,
    fun t => by unfold EasingFunctions.easeInQuart; ring,
    fun t => by unfold EasingFunctions.easeOutQuart; ring, ?_,
    fun t => by unfold EasingFunctions.easeInQuint; ring,
    fun t => by unfold EasingFunctions.easeOutQuint; ring, ?_⟩
  · intro t
    unfold EasingFunctions.easeInOutQuad
    split_ifs <;> ring
  · intro t
    unfold EasingFunctions.easeInOutCubic
    split_ifs <;> ring
  · intro t
    unfold EasingFunctions.easeInOutQuart
    split_ifs <;> ring
  · intro t
    unfold EasingFunctions.easeInOutQuint
    split_ifs <;> ring

/-- Claim C9: every entry of the exported easing catalog maps 0 to 0 and
1 to 1 exactly. -/
theorem easing_catalog_endpoints (p : String × (ℚ → ℚ))
    (hp : p ∈ easingCatalog) : p.2 0 = 0 ∧ p.2 1 = 1 := by
  fin_cases hp <;>
    constructor <;>
    norm_num [EasingFunctions.linear, EasingFunctions.easeInQuad,
      EasingFunctions.easeOutQuad, EasingFunctions.easeInOutQuad,
      EasingFunctions.easeInCubic, EasingFunctions.easeOutCubic,
      EasingFunctions.easeInOutCubic, EasingFunctions.easeInQuart,
      EasingFunctions.easeOutQuart, EasingFunctions.easeInOutQuart,
      EasingFunctions.easeInQuint, EasingFunctions.easeOutQuint,
      EasingFunctions.easeInOutQuint]

/-- Claim C9 witness: the catalog's linear entry maps 0 to 0 and 1 to 1. -/
theorem easing_catalog_endpoints_witness :
    EasingFunctions.linear 0 = 0 ∧ EasingFunctions.linear 1 = 1 :=
  easing_catalog_endpoints ("linear", EasingFunctions.linear)
    (List.mem_cons_self _ _)

/-! ### Range bounds for each easing curve on the unit interval -/

theorem linear_range (t : ℚ) (h0 : 0 ≤ t) (h1 : t ≤ 1) :
    0 ≤ EasingFunctions.linear t ∧ EasingFunctions.linear t ≤ 1 := ⟨h0, h1⟩

theorem easeInQuad_range (t : ℚ) (h0 : 0 ≤ t) (h1 : t ≤ 1) :
    0 ≤ EasingFunctions.easeInQuad t ∧ EasingFunctions.easeInQuad t ≤ 1 := by
  unfold EasingFunctions.easeInQuad
  exact ⟨mul_nonneg h0 h0, by nlinarith⟩

theorem easeOutQuad_range (t : ℚ) (h0 : 0 ≤ t) (h1 : t ≤ 1) :
    0 ≤ EasingFunctions.easeOutQuad t ∧ EasingFunctions.easeOutQuad t ≤ 1 := by
  unfold EasingFunctions.easeOutQuad
  constructor
  · exact mul_nonneg h0 (by linarith)
  · nlinarith [sq_nonneg (1 - t)]

theorem easeInOutQuad_range (t : ℚ) (h0 : 0 ≤ t) (h1 : t ≤ 1) :
    0 ≤ EasingFunctions.easeInOutQuad t ∧ EasingFunctions.easeInOutQuad t ≤ 1 := by
  unfold EasingFunctions.easeInOutQuad
  split_ifs with ht
  · constructor
    · exact mul_nonneg (mul_nonneg (by norm_num) h0) h0
    · nlinarith
  · rw [not_lt] at ht
    constructor
    · nlinarith [mul_nonneg (by linarith : (0:ℚ) ≤ 2 * t - 1) (by linarith : (0:ℚ) ≤ 1 - t)]
    · nlinarith [sq_nonneg (1 - t)]

theorem easeInCubic_range (t : ℚ) (h0 : 0 ≤ t) (h1 : t ≤ 1) :
    0 ≤ EasingFunctions.easeInCubic t ∧ EasingFunctions.easeInCubic t ≤ 1 := by
  unfold EasingFunctions.easeInCubic
  constructor
  · exact mul_nonneg (mul_nonneg h0 h0) h0
  · nlinarith [mul_nonneg h0 (by linarith : (0:ℚ) ≤ 1 - t),
      mul_nonneg (mul_nonneg h0 h0) (by linarith : (0:ℚ) ≤ 1 - t)]

theorem easeOutCubic_range (t : ℚ) (h0 : 0 ≤ t) (h1 : t ≤ 1) :
    0 ≤ EasingFunctions.easeOutCubic t ∧ EasingFunctions.easeOutCubic t ≤ 1 := by
  simp only [EasingFunctions.easeOutCubic]
  constructor
  · nlinarith [mul_nonneg h0 (sq_nonneg (t - 1)),
      mul_nonneg h0 (by linarith : (0:ℚ) ≤ 2 - t)]
  · nlinarith [mul_nonneg (mul_nonneg (by linarith : (0:ℚ) ≤ 1 - t)
      (by linarith : (0:ℚ) ≤ 1 - t)) (by linarith : (0:ℚ) ≤ 1 - t)]

theorem easeInOutCubic_range (t : ℚ) (h0 : 0 ≤ t) (h1 : t ≤ 1) :
    0 ≤ EasingFunctions.easeInOutCubic t ∧ EasingFunctions.easeInOutCubic t ≤ 1 := by
  unfold EasingFunctions.easeInOutCubic
  split_ifs with ht
  · constructor
    · exact mul_nonneg (mul_nonneg (mul_nonneg (by norm_num) h0) h0) h0
    · have hp : t ^ 3 ≤ (1/2 : ℚ) ^ 3 := pow_le_pow_left₀ h0 (by linarith) 3
      nlinarith [hp]
  · rw [not_lt] at ht
    constructor
    · have hp : (1 - t) ^ 3 ≤ (1/2 : ℚ) ^ 3 :=
        pow_le_pow_left₀ (by linarith) (by linarith) 3
      nlinarith [hp]
    · nlinarith [mul_nonneg (by linarith : (0:ℚ) ≤ 1 - t) (sq_nonneg (2 * t - 2))]

theorem easeInQuart_range (t : ℚ) (h0 : 0 ≤ t) (h1 : t ≤ 1) :
    0 ≤ EasingFunctions.easeInQuart t ∧ EasingFunctions.easeInQuart t ≤ 1 := by
  unfold EasingFunctions.easeInQuart
  constructor
  · exact mul_nonneg (mul_nonneg (mul_nonneg h0 h0) h0) h0
  · have hp : t ^ 4 ≤ 1 := pow_le_one₀ h0 h1
    nlinarith [hp]

theorem easeOutQuart_range (t : ℚ) (h0 : 0 ≤ t) (h1 : t ≤ 1) :
    0 ≤ EasingFunctions.easeOutQuart t ∧ EasingFunctions.easeOutQuart t ≤ 1 := by
  simp only [EasingFunctions.easeOutQuart]
  constructor
  · have hp : (1 - t) ^ 4 ≤ 1 := pow_le_one₀ (by linarith) (by linarith)
    nlinarith [hp]
  · have hp : (0:ℚ) ≤ (1 - t) ^ 4 := pow_nonneg (by linarith) 4
    nlinarith [hp]

theorem easeInOutQuart_range (t : ℚ) (h0 : 0 ≤ t) (h1 : t ≤ 1) :
    0 ≤ EasingFunctions.easeInOutQuart t ∧ EasingFunctions.easeInOutQuart t ≤ 1 := by
  simp only [EasingFunctions.easeInOutQuart]
  split_ifs with ht
  · constructor
    · exact mul_nonneg (mul_nonneg (mul_nonneg (mul_nonneg (by norm_num) h0) h0) h0) h0
    · have hp : t ^ 4 ≤ (1/2 : ℚ) ^ 4 := pow_le_pow_left₀ h0 (by linarith) 4
      nlinarith [hp]
  · rw [not_lt] at ht
    constructor
    · have hp : (1 - t) ^ 4 ≤ (1/2 : ℚ) ^ 4 :=
        pow_le_pow_left₀ (by linarith) (by linarith) 4
      nlinarith [hp]
    · have hp : (0:ℚ) ≤ (1 - t) ^ 4 := pow_nonneg (by linarith) 4
      nlinarith [hp]

theorem easeInQuint_range (t : ℚ) (h0 : 0 ≤ t) (h1 : t ≤ 1) :
    0 ≤ EasingFunctions.easeInQuint t ∧ EasingFunctions.easeInQuint t ≤ 1 := by
  unfold EasingFunctions.easeInQuint
  constructor
  · exact mul_nonneg (mul_nonneg (mul_nonneg (mul_nonneg h0 h0) h0) h0) h0
  · have hp : t ^ 5 ≤ 1 := pow_le_one₀ h0 h1
    nlinarith [hp]

theorem easeOutQuint_range (t : ℚ) (h0 : 0 ≤ t) (h1 : t ≤ 1) :
    0 ≤ EasingFunctions.easeOutQuint t ∧ EasingFunctions.easeOutQuint t ≤ 1 := by
  simp only [EasingFunctions.easeOutQuint]
  constructor
  · have hp : (1 - t) ^ 5 ≤ 1 := pow_le_one₀ (by linarith) (by linarith)
    nlinarith [hp]
  · have hp : (0:ℚ) ≤ (1 - t) ^ 5 := pow_nonneg (by linarith) 5
    nlinarith [hp]

theorem easeInOutQuint_range (t : ℚ) (h0 : 0 ≤ t) (h1 : t ≤ 1) :
    0 ≤ EasingFunctions.easeInOutQuint t ∧ EasingFunctions.easeInOutQuint t ≤ 1 := by
  simp only [EasingFunctions.easeInOutQuint]
  split_ifs with ht
  · constructor
    · exact mul_nonneg (mul_nonneg (mul_nonneg (mul_nonneg (mul_nonneg
        (by norm_num) h0) h0) h0) h0) h0
    · have hp : t ^ 5 ≤ (1/2 : ℚ) ^ 5 := pow_le_pow_left₀ h0 (by linarith) 5
      nlinarith [hp]
  · rw [not_lt] at ht
    constructor
    · have hp : (1 - t) ^ 5 ≤ (1/2 : ℚ) ^ 5 :=
        pow_le_pow_left₀ (by linarith) (by linarith) 5
      nlinarith [hp]
    · have hp : (0:ℚ) ≤ (1 - t) ^ 5 := pow_nonneg (by linarith) 5
      nlinarith [hp]

/-- Claim C10: every entry of the exported easing catalog maps any input in
[0,1] to an output in [0,1]: none of the thirteen curves overshoots or
undershoots on in-range inputs. -/
theorem easing_catalog_range (p : String × (ℚ → ℚ)) (hp : p ∈ easingCatalog)
    (t : ℚ) (h0 : 0 ≤ t) (h1 : t ≤ 1) : 0 ≤ p.2 t ∧ p.2 t ≤ 1 := by
  fin_cases hp
  · exact linear_range t h0 h1
  · exact easeInQuad_range t h0 h1
  · exact easeOutQuad_range t h0 h1
  · exact easeInOutQuad_range t h0 h1
  · exact easeInCubic_range t h0 h1
  · exact easeOutCubic_range t h0 h1
  · exact easeInOutCubic_range t h0 h1
  · exact easeInQuart_range t h0 h1
  · exact easeOutQuart_range t h0 h1
  · exact easeInOutQuart_range t h0 h1
  · exact easeInQuint_range t h0 h1
  · exact easeOutQuint_range t h0 h1
  · exact easeInOutQuint_range t h0 h1

/-- Claim C10 witness: the catalog's linear entry at t = 1/2 lies in [0,1]. -/
theorem easing_catalog_range_witness :
    ((0:ℚ) ≤ 1/2) ∧ ((1:ℚ)/2 ≤ 1) ∧
    (0 ≤ EasingFunctions.linear (1/2) ∧ EasingFunctions.linear (1/2) ≤ 1) :=
  ⟨by norm_num, by norm_num,
    easing_catalog_range ("linear", EasingFunctions.linear)
      (List.mem_cons_self _ _) (1/2) (by norm_num) (by norm_num)⟩

end AnimateJs
